import Mathlib

/-!
Verification development for the bia-explorer client library.

The Python source is shallowly embedded: pure fragments become Lean
functions, remote services (the search API, the direct-fetch API, the
chunked array store) become explicit function parameters, and code that
raises exceptions returns `Except String`.  Record identifiers are
modelled as natural numbers; strings stay strings.
-/

/- String helpers shared by several embeddings.  `concatRows` models the
Python idiom of joining a list of already-terminated rows with an empty
separator. -/

def concatRows : List String → String
  | [] => ""
  | r :: rs => r ++ concatRows rs

/- Substring search over character lists, used to state that an error
message names a tag, a URI or a shape. -/

def charsStart : List Char → List Char → Bool
  | _, [] => true
  | [], _ :: _ => false
  | a :: as, b :: bs => (a == b) && charsStart as bs

def charsContain : List Char → List Char → Bool
  | [], pat => charsStart [] pat
  | h :: t, pat => charsStart (h :: t) pat || charsContain t pat

def strContainsStr (s sub : String) : Bool :=
  charsContain s.toList sub.toList

theorem charsStart_append (p b : List Char) : charsStart (p ++ b) p = true := by
  induction p with
  | nil => cases b <;> rfl
  | cons a as ih => simp [charsStart, ih]

theorem charsContain_of_start (hay pat : List Char) (h : charsStart hay pat = true) :
    charsContain hay pat = true := by
  cases hay with
  | nil => simpa [charsContain] using h
  | cons x t => simp [charsContain, h]

theorem charsContain_append_left (a hay pat : List Char)
    (h : charsContain hay pat = true) : charsContain (a ++ hay) pat = true := by
  induction a with
  | nil => simpa using h
  | cons x xs ih => simp [charsContain, ih]

theorem charsContain_mid (a pat b : List Char) :
    charsContain (a ++ (pat ++ b)) pat = true :=
  charsContain_append_left a _ _ (charsContain_of_start _ _ (charsStart_append pat b))

theorem strContainsStr_mid (a mid b : String) :
    strContainsStr (a ++ (mid ++ b)) mid = true := by
  have h := charsContain_mid a.toList mid.toList b.toList
  simpa [strContainsStr] using h

/-! ## Slice resolution (`ImageSlice`, api.py lines 185-198) -/

/-- Embedding of `ImageSlice`: five independently optional integer
coordinates labelled c/x/y/z/t, all defaulting to unset. -/
structure ImageSlice where
  c : Option Int := none
  x : Option Int := none
  y : Option Int := none
  z : Option Int := none
  t : Option Int := none
  deriving DecidableEq

/-- Embedding of `ImageSlice.as_tuple`: a fixed-order 3-tuple of the
c, z and t fields, with no notion of the data dimension order. -/
def ImageSlice.as_tuple (s : ImageSlice) : Option Int × Option Int × Option Int :=
  (s.c, s.z, s.t)

/-! ## Display formatting (`BIAImageRepresentation.get_slice_image`,
api.py lines 239-267)

The dask materialization is an external collaborator; the embedding takes
the shape of the already-materialized slice (a list of dimension sizes)
plus the two optional resize targets.  PIL conventions are modelled
explicitly: `Image.fromarray` on a rank-2 array of shape (r, c) yields a
raster of height r and width c, and `Image.resize((a, b))` yields a
raster of width a and height b.  Python truthiness of the optional
integer targets (None and 0 are both falsy) is `pyFalsy`.  Integer
division is Nat division; the Python code would raise on division by
zero, so theorems assume nonzero dimensions. -/

def pyFalsy : Option Nat → Bool
  | none => true
  | some n => n == 0

structure PILImage where
  width : Nat
  height : Nat
  deriving DecidableEq

def max_dimension_size : Nat := 5000

def rankErrorMsg (shape : List Nat) : String :=
  "Unable to display slice of shape " ++ (toString shape ++ ". xy plane required")

def sizeErrorMsg (shape : List Nat) : String :=
  "Trying to display a " ++ (toString shape ++
    " plane. Consider manual data manipulation and rendering for planes larger than (5000, 5000)")

def get_slice_image (shape : List Nat) (img_h img_w : Option Nat) :
    Except String PILImage :=
  if shape.length ≠ 2 then .error (rankErrorMsg shape)
  else if max_dimension_size < shape.headI ∨ max_dimension_size < shape.tail.headI then
    .error (sizeErrorMsg shape)
  else
    let img : PILImage := { width := shape.tail.headI, height := shape.headI }
    if pyFalsy img_h && pyFalsy img_w then .ok img
    else
      let w := if pyFalsy img_w then img.height * img_h.getD 0 / img.width else img_w.getD 0
      let h := if pyFalsy img_h then img.width * w / img.height else img_h.getD 0
      .ok { width := h, height := w }

/-- C2: for every ImageSlice, as_tuple returns exactly the 3-tuple
(channel, z, time) of its c, z and t fields in that fixed order,
independent of the x and y fields, and for a slice with all five fields
unset the resolved tuple is (none, none, none). -/
theorem as_tuple_fixed_order (s : ImageSlice) :
    s.as_tuple = (s.c, s.z, s.t) ∧
    (∀ x y : Option Int, (ImageSlice.mk s.c x y s.z s.t).as_tuple = s.as_tuple) ∧
    (ImageSlice.mk none none none none none).as_tuple = (none, none, none) :=
  ⟨rfl, fun _ _ => rfl, rfl⟩

example : get_slice_image [4000, 4000] none none = .ok ⟨4000, 4000⟩ := rfl
example : get_slice_image [300, 200] (some 256) none = .ok ⟨256, 384⟩ := rfl
example : get_slice_image [6000, 4000] none none = .error (sizeErrorMsg [6000, 4000]) := rfl
example : get_slice_image [4, 5, 6] none none = .error (rankErrorMsg [4, 5, 6]) := rfl

/-- C3: a materialized slice whose rank is not 2, or whose dimensions
exceed the fixed maximum of 5000, makes get_slice_image fail with an
error naming the actual shape, never returning a raster; a 4000 by 4000
slice passes both checks while a 6000 by 4000 slice fails. -/
theorem get_slice_image_shape_guard :
    (∀ (shape : List Nat) (h w : Option Nat), shape.length ≠ 2 →
      get_slice_image shape h w = .error (rankErrorMsg shape) ∧
      strContainsStr (rankErrorMsg shape) (toString shape) = true) ∧
    (∀ (shape : List Nat) (h w : Option Nat), shape.length = 2 →
      (max_dimension_size < shape.headI ∨ max_dimension_size < shape.tail.headI) →
      get_slice_image shape h w = .error (sizeErrorMsg shape) ∧
      strContainsStr (sizeErrorMsg shape) (toString shape) = true) ∧
    get_slice_image [4000, 4000] none none = .ok ⟨4000, 4000⟩ ∧
    (∃ e, get_slice_image [6000, 4000] none none = .error e) := by
  refine ⟨?_, ?_, rfl, ⟨sizeErrorMsg [6000, 4000], rfl⟩⟩
  · intro shape h w hne
    refine ⟨?_, strContainsStr_mid _ _ _⟩
    simp [get_slice_image, hne]
  · intro shape h w hlen hbig
    refine ⟨?_, strContainsStr_mid _ _ _⟩
    unfold get_slice_image
    rw [if_neg (fun hc => hc hlen), if_pos hbig]

theorem get_slice_image_shape_guard_witness :
    (([4, 5, 6] : List Nat).length ≠ 2 ∧
      get_slice_image [4, 5, 6] none none = .error (rankErrorMsg [4, 5, 6])) ∧
    (([6000, 4000] : List Nat).length = 2 ∧
      (max_dimension_size < ([6000, 4000] : List Nat).headI ∨
        max_dimension_size < ([6000, 4000] : List Nat).tail.headI) ∧
      get_slice_image [6000, 4000] none none = .error (sizeErrorMsg [6000, 4000])) :=
  ⟨⟨by decide, (get_slice_image_shape_guard.1 [4, 5, 6] none none (by decide)).1⟩,
   ⟨by decide, by decide,
    (get_slice_image_shape_guard.2.1 [6000, 4000] none none (by decide) (by decide)).1⟩⟩

/-- C5: with a target height and no target width, get_slice_image
computes the missing dimension as the floor of the exact
aspect-preserving value (so the resized raster preserves the original
aspect ratio to within integer rounding), and with neither target given
it returns the raster unresized. -/
theorem get_slice_image_resize (r c th : Nat) (hr1 : 1 ≤ r) (hr2 : r ≤ 5000)
    (hc1 : 1 ≤ c) (hc2 : c ≤ 5000) (hth : 1 ≤ th) :
    (get_slice_image [r, c] (some th) none = .ok { width := th, height := r * th / c } ∧
      c * (r * th / c) ≤ r * th ∧ r * th < c * (r * th / c + 1)) ∧
    get_slice_image [r, c] none none = .ok { width := c, height := r } := by
  have hlen : ¬(([r, c] : List Nat).length ≠ 2) := by simp
  have hdim : ¬(max_dimension_size < ([r, c] : List Nat).headI ∨
      max_dimension_size < ([r, c] : List Nat).tail.headI) := by
    simp [max_dimension_size, List.headI]
    omega
  have hthf : pyFalsy (some th) = false := by
    simp [pyFalsy]
    omega
  refine ⟨⟨?_, ?_, ?_⟩, ?_⟩
  · have hth0 : th ≠ 0 := by omega
    unfold get_slice_image
    rw [if_neg hlen, if_neg hdim]
    simp [hthf, pyFalsy, List.headI, hth0]
  · calc c * (r * th / c) = r * th / c * c := Nat.mul_comm _ _
      _ ≤ r * th := Nat.div_mul_le_self _ _
  · have hdm := Nat.div_add_mod (r * th) c
    have hm : r * th % c < c := Nat.mod_lt _ (by omega)
    calc r * th = c * (r * th / c) + r * th % c := hdm.symm
      _ < c * (r * th / c) + c := Nat.add_lt_add_left hm _
      _ = c * (r * th / c + 1) := (Nat.mul_succ c _).symm
  · unfold get_slice_image
    rw [if_neg hlen, if_neg hdim]
    simp [pyFalsy]

theorem get_slice_image_resize_witness :
    ((1 : Nat) ≤ 300 ∧ (300 : Nat) ≤ 5000 ∧ (1 : Nat) ≤ 200 ∧ (200 : Nat) ≤ 5000 ∧
      (1 : Nat) ≤ 256) ∧
    get_slice_image [300, 200] (some 256) none = .ok { width := 256, height := 384 } ∧
    get_slice_image [300, 200] none none = .ok { width := 200, height := 300 } :=
  ⟨by decide,
   (get_slice_image_resize 300 200 256 (by decide) (by decide) (by decide) (by decide)
      (by decide)).1.1,
   (get_slice_image_resize 300 200 256 (by decide) (by decide) (by decide) (by decide)
      (by decide)).2⟩

/-! ## Array materialization (`BIAImageRepresentation.to_dask_array`,
api.py lines 204-237)

The chunked array store is an external collaborator; opening it is
modelled as producing an opaque handle on the primary URI.  The format
tag dispatch and the exception messages are embedded faithfully: the
zipped-archive branch raises the bare message TODO, and the fallback
branch raises a message built from the tag and the primary URI. -/

structure DaskArrayHandle where
  uri : String
  deriving DecidableEq

def ome_ngff_to_dask_array (uri : List String) : DaskArrayHandle :=
  { uri := uri.headI }

def unsupportedMsg (ty u : String) : String :=
  "No automatic display supported for representation of type " ++ (ty ++ (" at " ++ (u ++ "")))

def to_dask_array (ty : String) (uri : List String) : Except String DaskArrayHandle :=
  if ty == "ome_ngff" then .ok (ome_ngff_to_dask_array uri)
  else if ty == "zipped_zarr" then .error "TODO"
  else .error (unsupportedMsg ty uri.headI)

/-- C4 counterexample: for the zipped-archive tag, to_dask_array raises
the bare message TODO, which names neither the format tag nor the URI,
refuting the claim that every non-native tag produces an error naming
both. -/
theorem to_dask_array_zipped_names_nothing :
    to_dask_array "zipped_zarr" ["https://example.org/img.zarr.zip"] = .error "TODO" ∧
    strContainsStr "TODO" "zipped_zarr" = false ∧
    strContainsStr "TODO" "https://example.org/img.zarr.zip" = false :=
  ⟨rfl, rfl, rfl⟩

/-- C4 (amended): for every representation whose format tag is not
ome_ngff, to_dask_array raises a hard error; for an unrecognized tag the
error names the offending tag and the primary URI, while for the
not-yet-implemented zipped_zarr tag it raises the bare
not-implemented message TODO, which names neither. -/
theorem to_dask_array_non_native (ty u : String) (rest : List String)
    (hn : ty ≠ "ome_ngff") :
    (∃ e, to_dask_array ty (u :: rest) = .error e) ∧
    (ty ≠ "zipped_zarr" →
      to_dask_array ty (u :: rest) = .error (unsupportedMsg ty u) ∧
      strContainsStr (unsupportedMsg ty u) ty = true ∧
      strContainsStr (unsupportedMsg ty u) u = true) ∧
    (ty = "zipped_zarr" → to_dask_array ty (u :: rest) = .error "TODO") := by
  have hb : (ty == "ome_ngff") = false := by
    simp [hn]
  constructor
  · by_cases hz : ty = "zipped_zarr"
    · exact ⟨"TODO", by simp [to_dask_array, hb, hz]⟩
    · refine ⟨unsupportedMsg ty u, ?_⟩
      simp [to_dask_array, hb, hz, List.headI]
  · constructor
    · intro hz
      refine ⟨by simp [to_dask_array, hb, hz, List.headI], ?_, ?_⟩
      · exact strContainsStr_mid _ _ _
      · have h := strContainsStr_mid
          ("No automatic display supported for representation of type " ++ (ty ++ " at ")) u ""
        have harr : "No automatic display supported for representation of type " ++
            (ty ++ (" at " ++ (u ++ ""))) =
            "No automatic display supported for representation of type " ++ (ty ++ " at ") ++
            (u ++ "") := by
          simp [String.append_assoc]
        rw [unsupportedMsg, harr]
        exact h
    · intro hz
      simp [to_dask_array, hb, hz]

theorem to_dask_array_non_native_witness :
    (("tiff" : String) ≠ "ome_ngff" ∧ ("tiff" : String) ≠ "zipped_zarr" ∧
      to_dask_array "tiff" ["https://a.org/x.tiff"] =
        .error (unsupportedMsg "tiff" "https://a.org/x.tiff") ∧
      strContainsStr (unsupportedMsg "tiff" "https://a.org/x.tiff") "tiff" = true ∧
      strContainsStr (unsupportedMsg "tiff" "https://a.org/x.tiff") "https://a.org/x.tiff" = true) ∧
    (("zipped_zarr" : String) ≠ "ome_ngff" ∧
      to_dask_array "zipped_zarr" ["https://a.org/x.zip"] = .error "TODO") :=
  ⟨⟨by decide, by decide,
    (to_dask_array_non_native "tiff" "https://a.org/x.tiff" [] (by decide)).2.1 (by decide)⟩,
   ⟨by decide,
    (to_dask_array_non_native "zipped_zarr" "https://a.org/x.zip" [] (by decide)).2.2 rfl⟩⟩

/-! ## ApiClient lookups (api.py lines 285-434)

The generated client is an external collaborator: each remote endpoint
becomes a function parameter.  Records are identified by natural
numbers, and the entity-wrapping constructor calls (BIAStudy, BIAImage,
FileReference, BIACollection on a fetched record dict) are the identity
on the record. -/

/-- The two direct-fetch-by-id endpoints the client exposes that are
relevant to get_file_reference_by_uuid: the image fetch and the
file-reference fetch. -/
structure ApiClientServices where
  get_image : String → Nat
  get_file_reference : String → Nat

/-- Embedding of `ApiClient.get_file_reference_by_uuid`
(api.py lines 428-433): the source calls `cls.client.get_image` on the
given identifier and wraps the result as a FileReference. -/
def get_file_reference_by_uuid (client : ApiClientServices) (fileref_uuid : String) : Nat :=
  client.get_image fileref_uuid

/-- C6: evaluation at a client whose image endpoint and file-reference
endpoint return different records shows that get_file_reference_by_uuid
returns the image-endpoint record, not the file-reference-endpoint
record, for the same identifier. -/
theorem get_file_reference_by_uuid_uses_image_endpoint :
    get_file_reference_by_uuid
      { get_image := fun _ => 17, get_file_reference := fun _ => 42 } "uuid-1" = 17 ∧
    ({ get_image := fun _ => 17, get_file_reference := fun _ => 42 } :
        ApiClientServices).get_file_reference "uuid-1" = 42 ∧
    (17 : Nat) ≠ 42 :=
  ⟨rfl, rfl, by decide⟩

/-- Embedding of `ApiClient.get_collection` (api.py lines 320-328):
zero matches yield nothing, one match is wrapped and returned, several
matches raise. -/
def get_collection (search_collections : String → List Nat) (collection_name : String) :
    Except String (Option Nat) :=
  let found := search_collections collection_name
  if found.length == 0 then .ok none
  else if found.length == 1 then .ok (some found.headI)
  else .error "Unexpected multiple collections with the same name"

/-- C7: get_collection returns nothing on zero matches, the single
wrapped collection on exactly one match, and raises the ambiguity error
on two or more matches. -/
theorem get_collection_cases (search_collections : String → List Nat)
    (collection_name : String) :
    get_collection search_collections collection_name =
      match search_collections collection_name with
      | [] => .ok none
      | [c] => .ok (some c)
      | _ :: _ :: _ => .error "Unexpected multiple collections with the same name" := by
  unfold get_collection
  cases h : search_collections collection_name with
  | nil => rfl
  | cons a t =>
    cases t with
    | nil => rfl
    | cons b t2 => rfl

/-- Embedding of the search-side models used by `study_by_accession`. -/
structure SearchStudy where
  accession_id : Option String := none
  deriving DecidableEq

structure SearchStudyFilter where
  start_uuid : Option Nat := none
  limit : Option Nat := none
  study_match : SearchStudy := {}
  deriving DecidableEq

/-- Embedding of `ApiClient.study_by_accession` (api.py lines 331-344):
search with an exact-match filter limited to one result; a nonempty
result list yields its first element wrapped, an empty one yields
nothing, with no raising path. -/
def study_by_accession (search : SearchStudyFilter → List Nat) (accession_id : String) :
    Option Nat :=
  let results := search { study_match := { accession_id := some accession_id }, limit := some 1 }
  if results.length ≠ 0 then some results.headI else none

/-- Embedding of `ApiClient.get_study_image_by_alias`
(api.py lines 363-371): a nonempty result list yields its first element
wrapped, an empty one yields nothing, with no raising path. -/
def get_study_image_by_alias (get_images_by_alias : String → List String → List Nat)
    (accession_id al : String) : Option Nat :=
  let images := get_images_by_alias accession_id [al]
  if images.length ≠ 0 then some images.headI else none

/-- C8: with zero matching records, study_by_accession and
get_study_image_by_alias both return nothing; being total functions
into Option with no error channel, they never raise. -/
theorem lookups_return_none_on_empty (search : SearchStudyFilter → List Nat)
    (get_images_by_alias : String → List String → List Nat) (acc al : String)
    (h1 : search { study_match := { accession_id := some acc }, limit := some 1 } = [])
    (h2 : get_images_by_alias acc [al] = []) :
    study_by_accession search acc = none ∧
    get_study_image_by_alias get_images_by_alias acc al = none := by
  constructor
  · unfold study_by_accession
    simp [h1]
  · unfold get_study_image_by_alias
    simp [h2]

theorem lookups_return_none_on_empty_witness :
    ((fun _ : SearchStudyFilter => ([] : List Nat))
        { study_match := { accession_id := some "S-BIAD1" }, limit := some 1 } = [] ∧
      (fun _ : String => fun _ : List String => ([] : List Nat)) "S-BIAD1" ["im1"] = []) ∧
    study_by_accession (fun _ => []) "S-BIAD1" = none ∧
    get_study_image_by_alias (fun _ _ => []) "S-BIAD1" "im1" = none :=
  ⟨⟨rfl, rfl⟩,
   (lookups_return_none_on_empty (fun _ => []) (fun _ _ => []) "S-BIAD1" "im1" rfl rfl).1,
   (lookups_return_none_on_empty (fun _ => []) (fun _ _ => []) "S-BIAD1" "im1" rfl rfl).2⟩

/-! ## Cursor paginator (`ApiClient.all_studies`, api.py lines 295-310,
and `ApiClient.get_study_images`, api.py lines 346-361)

The search endpoint is an external collaborator.  Records are their
identifiers (naturals ordered by <).  Under the assumption stated by the
spec, a fetch with cursor c returns the first `P` stored records whose
identifier is strictly greater than c (all records when the cursor is
unset): this is `fetchModel`.  Both loops perform one fetch per
iteration, stop on an empty page, and otherwise yield the whole page and
advance the cursor to the identifier of the last record of the page; the
embedding counts fetches in the second component.  The loops are written
with explicit fuel; the top-level wrappers supply fuel that the main
theorem proves sufficient (one more than the number of stored
records). -/

def afterCursor : Option Nat → Nat → Bool
  | none, _ => true
  | some cur, r => decide (cur < r)

def fetchModel (recs : List Nat) (P : Nat) (c : Option Nat) : List Nat :=
  (recs.filter (afterCursor c)).take P

def all_studies_loop (fetch : Option Nat → List Nat) : Option Nat → Nat → List Nat × Nat
  | _, 0 => ([], 0)
  | c, fuel + 1 =>
    let page := fetch c
    match page.getLast? with
    | none => ([], 1)
    | some lastId =>
      (page ++ (all_studies_loop fetch (some lastId) fuel).1,
        (all_studies_loop fetch (some lastId) fuel).2 + 1)

def get_study_images_loop (fetch : Option Nat → List Nat) : Option Nat → Nat → List Nat × Nat
  | _, 0 => ([], 0)
  | c, fuel + 1 =>
    let page := fetch c
    match page.getLast? with
    | none => ([], 1)
    | some lastId =>
      (page ++ (get_study_images_loop fetch (some lastId) fuel).1,
        (get_study_images_loop fetch (some lastId) fuel).2 + 1)

def all_studies (recs : List Nat) (P : Nat) : List Nat × Nat :=
  all_studies_loop (fetchModel recs P) none (recs.length + 1)

def get_study_images (recs : List Nat) (P : Nat) : List Nat × Nat :=
  get_study_images_loop (fetchModel recs P) none (recs.length + 1)

example : all_studies [3, 5, 9] 2 = ([3, 5, 9], 3) := by decide
example : all_studies [] 2 = ([], 1) := by decide
example : all_studies [3, 5, 9, 11] 2 = ([3, 5, 9, 11], 3) := by decide
example : get_study_images [3, 5, 9] 1 = ([3, 5, 9], 4) := by decide

theorem loops_eq (fetch : Option Nat → List Nat) :
    ∀ (fuel : Nat) (c : Option Nat),
      get_study_images_loop fetch c fuel = all_studies_loop fetch c fuel := by
  intro fuel
  induction fuel with
  | zero => intro c; rfl
  | succ F ih =>
    intro c
    cases h : (fetch c).getLast? with
    | none => simp [get_study_images_loop, all_studies_loop, h]
    | some lastId => simp [get_study_images_loop, all_studies_loop, h, ih]

theorem filter_after_getLast :
    ∀ (rem : List Nat), rem.Sorted (· < ·) → ∀ (P : Nat) (c' : Nat),
      (rem.take P).getLast? = some c' →
      rem.filter (afterCursor (some c')) = rem.drop P := by
  intro rem
  induction rem with
  | nil =>
    intro _ P c' h
    simp at h
  | cons x xs ih =>
    intro hs P c' h
    match P with
    | 0 => simp at h
    | Nat.succ Q =>
      rw [List.take_succ_cons] at h
      cases hq : xs.take Q with
      | nil =>
        rw [hq] at h
        have hc : x = c' := by simpa using h
        subst hc
        rw [List.drop_succ_cons]
        have hxall : ∀ b ∈ xs, x < b := (List.sorted_cons.mp hs).1
        have hxf : afterCursor (some x) x = false := by simp [afterCursor]
        rw [List.filter_cons_of_neg (by simp [hxf])]
        have hself : xs.filter (afterCursor (some x)) = xs :=
          List.filter_eq_self.mpr (fun b hb => by simp [afterCursor, hxall b hb])
        rw [hself]
        rcases List.take_eq_nil_iff.mp hq with hq0 | hxs
        · rw [hq0, List.drop_zero]
        · rw [hxs]
          simp
      | cons y ys =>
        rw [hq] at h
        rw [List.getLast?_cons_cons] at h
        have hmem : c' ∈ xs.take Q := by
          rw [hq]
          exact List.mem_of_getLast?_eq_some h
        have hc'xs : c' ∈ xs := List.take_subset Q xs hmem
        have hxc : x < c' := (List.sorted_cons.mp hs).1 c' hc'xs
        have hnot : afterCursor (some c') x = false := by
          simp [afterCursor]
          omega
        rw [List.drop_succ_cons, List.filter_cons_of_neg (by simp [hnot])]
        exact ih (List.sorted_cons.mp hs).2 Q c' (by rw [hq]; exact h)

theorem filter_filter_cursor (recs : List Nat) (c : Option Nat) (c' : Nat)
    (hc : afterCursor c c' = true) :
    (recs.filter (afterCursor c)).filter (afterCursor (some c')) =
      recs.filter (afterCursor (some c')) := by
  rw [List.filter_filter]
  apply List.filter_congr
  intro r _
  cases c with
  | none => simp [afterCursor]
  | some cur =>
    simp only [afterCursor, decide_eq_true_eq] at hc ⊢
    by_cases h : c' < r
    · have hcr : cur < r := lt_trans hc h
      simp [h, hcr]
    · simp [h]

theorem fetch_count_step (len P : Nat) (hP : 1 ≤ P) (hlen : 1 ≤ len) :
    (len - P + P - 1) / P + 1 + 1 = (len + P - 1) / P + 1 := by
  by_cases hle : len ≤ P
  · have h0 : len - P = 0 := by omega
    rw [h0]
    have h1 : (0 + P - 1) / P = 0 := Nat.div_eq_of_lt (by omega)
    have h2 : (len + P - 1) / P = 1 :=
      Nat.div_eq_of_lt_le (by omega) (by omega)
    rw [h1, h2]
  · have h1 : len - P + P - 1 = len - 1 := by omega
    have h2 : len + P - 1 = len - 1 + P := by omega
    rw [h1, h2, Nat.add_div_right _ (by omega : 0 < P)]

theorem all_studies_loop_run (recs : List Nat) (P : Nat) (hP : 1 ≤ P)
    (hs : recs.Sorted (· < ·)) :
    ∀ (fuel : Nat) (c : Option Nat) (rem : List Nat),
      rem = recs.filter (afterCursor c) → rem.length < fuel →
      all_studies_loop (fetchModel recs P) c fuel =
        (rem, (rem.length + P - 1) / P + 1) := by
  intro fuel
  induction fuel with
  | zero =>
    intro c rem _ hlt
    exact absurd hlt (Nat.not_lt_zero _)
  | succ F ih =>
    intro c rem hrem hlt
    have hpage : fetchModel recs P c = rem.take P := by
      simp only [fetchModel]
      rw [← hrem]
    by_cases hr : rem = []
    · subst hr
      rw [List.take_nil] at hpage
      simp only [all_studies_loop]
      rw [hpage]
      have hdiv : (P - 1) / P = 0 := Nat.div_eq_of_lt (by omega)
      simp [hdiv]
    · have hne : rem.take P ≠ [] := by
        intro h0
        rcases List.take_eq_nil_iff.mp h0 with h | h
        · omega
        · exact hr h
      obtain ⟨c', hc'⟩ : ∃ c', (rem.take P).getLast? = some c' := by
        cases hgl : (rem.take P).getLast? with
        | none => exact absurd (List.getLast?_eq_none_iff.mp hgl) hne
        | some a => exact ⟨a, rfl⟩
      have hmem : c' ∈ rem := List.take_subset _ _ (List.mem_of_getLast?_eq_some hc')
      have hcafter : afterCursor c c' = true := by
        have hm : c' ∈ recs.filter (afterCursor c) := hrem ▸ hmem
        exact (List.mem_filter.mp hm).2
      have hrems : rem.Sorted (· < ·) := by
        rw [hrem]
        exact hs.filter _
      have hnext : recs.filter (afterCursor (some c')) = rem.drop P := by
        rw [← filter_filter_cursor recs c c' hcafter, ← hrem]
        exact filter_after_getLast rem hrems P c' hc'
      have hlen1 : 1 ≤ rem.length := List.length_pos.mpr hr
      have hlt' : (rem.drop P).length < F := by
        rw [List.length_drop]
        omega
      have hrec := ih (some c') (rem.drop P) hnext.symm hlt'
      simp only [all_studies_loop]
      rw [hpage]
      simp only [hc']
      rw [hrec]
      rw [List.take_append_drop, List.length_drop]
      rw [fetch_count_step rem.length P hP hlen1]

/-- C1: for every page size P of at least 1 and every strictly
increasing stored record sequence, both cursor paginators yield exactly
the stored records, with no duplicates and no omissions, and perform
exactly the ceiling of N divided by P, plus one, page fetches (the
ceiling written as (N + P - 1) / P in natural division). -/
theorem cursor_paginator_complete (recs : List Nat) (P : Nat) (hP : 1 ≤ P)
    (hs : recs.Sorted (· < ·)) :
    all_studies recs P = (recs, (recs.length + P - 1) / P + 1) ∧
    get_study_images recs P = (recs, (recs.length + P - 1) / P + 1) ∧
    recs.Nodup := by
  have hfil : recs.filter (afterCursor none) = recs :=
    List.filter_eq_self.mpr (fun a _ => rfl)
  have h1 := all_studies_loop_run recs P hP hs (recs.length + 1) none recs hfil.symm
    (by omega)
  refine ⟨h1, ?_, ?_⟩
  · unfold get_study_images
    rw [loops_eq]
    exact h1
  · exact hs.imp (fun h => Nat.ne_of_lt h)

theorem cursor_paginator_complete_witness :
    ((1 : Nat) ≤ 2 ∧ ([3, 5, 9] : List Nat).Sorted (· < ·)) ∧
    all_studies [3, 5, 9] 2 = ([3, 5, 9], 3) ∧
    get_study_images [3, 5, 9] 2 = ([3, 5, 9], 3) ∧
    ([3, 5, 9] : List Nat).Nodup :=
  ⟨⟨by decide, by decide⟩,
   (cursor_paginator_complete [3, 5, 9] 2 (by decide) (by decide)).1,
   (cursor_paginator_complete [3, 5, 9] 2 (by decide) (by decide)).2.1,
   (cursor_paginator_complete [3, 5, 9] 2 (by decide) (by decide)).2.2⟩

theorem concatRows_append (l1 l2 : List String) :
    concatRows (l1 ++ l2) = concatRows l1 ++ concatRows l2 := by
  induction l1 with
  | nil => simp [concatRows]
  | cons a t ih => simp [concatRows, ih, String.append_assoc]

/-! ## Legacy submission TSV serialization (biostudies.py lines 19-94)

Attributes, links, sections and submissions are embedded structurally.
A Python f-string renders an unset optional value as the text None
(`pyStrOfOpt`); Python truthiness of an optional string (None and the
empty string are falsy) is `pyTruthy`.  `sections_as_tsv` models the
empty-separator join over the mapped subsections. -/

namespace Biostudies

def pyStrOfOpt : Option String → String
  | none => "None"
  | some s => s

def pyTruthy : Option String → Bool
  | none => false
  | some s => !s.isEmpty

structure AttributeDetail where
  name : String
  value : String
  deriving DecidableEq

structure Attribute where
  name : String
  value : Option String := none
  reference : Bool := false
  nmqual : List AttributeDetail := []
  valqual : List AttributeDetail := []
  deriving DecidableEq

def Attribute.as_tsv (a : Attribute) : String :=
  if a.reference then "<" ++ a.name ++ ">\t" ++ pyStrOfOpt a.value ++ "\n"
  else a.name ++ "\t" ++ pyStrOfOpt a.value ++ "\n"

structure Link where
  url : String
  attributes : List Attribute := []
  deriving DecidableEq

def Link.as_tsv (l : Link) : String :=
  "\n" ++ "Link\t" ++ l.url ++ "\n" ++ concatRows (l.attributes.map Attribute.as_tsv)

inductive Section where
  | mk (type : String) (accno : Option String) (attributes : List Attribute)
      (subsections : List Section) (links : List Link)

/-- The accession text used in a header: the accession when truthy,
otherwise the empty string. -/
def accnoStr (o : Option String) : String :=
  if pyTruthy o then o.getD "" else ""

/-- The header line of a section row: type, accession and parent
accession when a truthy parent accession was passed down; type and
accession when only the accession is truthy; bare type otherwise. -/
def headerLine (ty : String) (accno parent_accno : Option String) : String :=
  if pyTruthy parent_accno then ty ++ "\t" ++ accnoStr accno ++ "\t" ++ parent_accno.getD ""
  else if pyTruthy accno then ty ++ "\t" ++ accnoStr accno
  else ty

mutual

def Section.as_tsv : Section → Option String → String
  | .mk ty accno attrs subs links, parent_accno =>
    "\n" ++ headerLine ty accno parent_accno ++ "\n"
      ++ concatRows (attrs.map Attribute.as_tsv)
      ++ concatRows (links.map Link.as_tsv)
      ++ sections_as_tsv subs accno

def sections_as_tsv : List Section → Option String → String
  | [], _ => ""
  | s :: rest, p => Section.as_tsv s p ++ sections_as_tsv rest p

end

structure Submission where
  accno : Option String
  sect : Section
  attributes : List Attribute

def Submission.as_tsv (sub : Submission) : String :=
  (if pyTruthy sub.accno then "Submission" ++ "\t" ++ sub.accno.getD "" else "Submission") ++ "\n"
    ++ concatRows (sub.attributes.map Attribute.as_tsv)
    ++ Section.as_tsv sub.sect none

/- Row-level rendering following the words of the specification: each
section contributes one header row, then one row per attribute, then the
rows of each link, then the rows of its subsections in order, each
subsection recursed with this section accession as the parent
accession. -/

def headerRow (ty : String) (accno parent_accno : Option String) : String :=
  "\n" ++ headerLine ty accno parent_accno ++ "\n"

def linkRows (l : Link) : List String :=
  ("\n" ++ "Link\t" ++ l.url ++ "\n") :: l.attributes.map Attribute.as_tsv

mutual

def sectionRows : Section → Option String → List String
  | .mk ty accno attrs subs links, parent_accno =>
    headerRow ty accno parent_accno
      :: (attrs.map Attribute.as_tsv
        ++ ((links.map linkRows).flatten ++ sectionsRows subs accno))

def sectionsRows : List Section → Option String → List String
  | [], _ => []
  | s :: rest, p => sectionRows s p ++ sectionsRows rest p

end

def submissionRows (sub : Submission) : List String :=
  ((if pyTruthy sub.accno then "Submission" ++ "\t" ++ sub.accno.getD "" else "Submission")
      ++ "\n")
    :: (sub.attributes.map Attribute.as_tsv ++ sectionRows sub.sect none)

theorem link_as_tsv_rows (l : Link) : Link.as_tsv l = concatRows (linkRows l) := by
  simp [Link.as_tsv, linkRows, concatRows, String.append_assoc]

theorem links_rows (links : List Link) :
    concatRows (links.map Link.as_tsv) = concatRows ((links.map linkRows).flatten) := by
  induction links with
  | nil => rfl
  | cons l t ih =>
    simp [concatRows, concatRows_append, link_as_tsv_rows, ih, String.append_assoc]

mutual

theorem section_as_tsv_rows_aux (s : Section) (p : Option String) :
    Section.as_tsv s p = concatRows (sectionRows s p) := by
  cases s with
  | mk ty accno attrs subs links =>
    have hsubs := sections_as_tsv_rows_aux subs accno
    simp [Section.as_tsv, sectionRows, concatRows, concatRows_append, links_rows, hsubs,
      headerRow, String.append_assoc]

theorem sections_as_tsv_rows_aux (l : List Section) (p : Option String) :
    sections_as_tsv l p = concatRows (sectionsRows l p) := by
  cases l with
  | nil => rfl
  | cons s rest =>
    have h1 := section_as_tsv_rows_aux s p
    have h2 := sections_as_tsv_rows_aux rest p
    simp [sections_as_tsv, sectionsRows, concatRows_append, h1, h2]

end

end Biostudies

example :
    Biostudies.Section.as_tsv
      (.mk "Study" (some "s1")
        [{ name := "Title", value := some "T" }]
        [.mk "Biosample" none [] [] []] [])
      none = "\nStudy\ts1\nTitle\tT\n\nBiosample\t\ts1\n" := rfl

/-- C9: the TSV serialization of a submission tree flattens, for each
section, to one header row (type, accession when truthy, parent
accession when a truthy parent accession exists), then one row per
attribute, then the rows of each link, then the rows of the subsections
in order, each recursed with this section accession as the parent
accession; the submission serialization is its own header row, its
attribute rows, then the rows of the root section with no parent
accession. -/
theorem submission_tsv_row_structure :
    (∀ sub : Biostudies.Submission,
      Biostudies.Submission.as_tsv sub = concatRows (Biostudies.submissionRows sub)) ∧
    (∀ (s : Biostudies.Section) (p : Option String),
      Biostudies.Section.as_tsv s p = concatRows (Biostudies.sectionRows s p)) := by
  constructor
  · intro sub
    simp [Biostudies.Submission.as_tsv, Biostudies.submissionRows, concatRows,
      concatRows_append, Biostudies.section_as_tsv_rows_aux, String.append_assoc]
  · exact Biostudies.section_as_tsv_rows_aux
